import Mathlib

/-!
Shallow embedding of the garagemq exchange/routing core and the BuntDB
storage wrapper, with theorems settling the specification claims.

Sources embedded:
- exchange package (exchange.go): type alias maps, Exchange, AppendBinding,
  RemoveBinding, RemoveQueueBindings, GetMatchedQueues, EqualWithErr,
  Marshal, Unmarshal.
- server/exchangeMethods.go: Channel.exchangeDeclare.
- storage/storage_bunt.go: BuntDB.ProcessBatch, Set, Del, Get.

The binding and amqp packages of the repository are not in src/ (only the
interfaces file declaring Binding's methods is); the definitions that stand
in for them are marked "Modelled from the spec" and follow the spec text.
-/

set_option autoImplicit false

namespace Garagemq

/-! ## Exchange type codes and alias maps (exchange.go lines 13-32) -/

/-- ExTypeDirect = iota + 1 -/
def ExTypeDirect : Nat := 1

/-- ExTypeFanout -/
def ExTypeFanout : Nat := 2

/-- ExTypeTopic -/
def ExTypeTopic : Nat := 3

/-- ExTypeHeaders -/
def ExTypeHeaders : Nat := 4

/-- exchangeTypeIDAliasMap: map from type id byte to alias string. -/
def exchangeTypeIDAliasMap : List (Nat × String) :=
  [(ExTypeDirect, "direct"), (ExTypeFanout, "fanout"),
   (ExTypeTopic, "topic"), (ExTypeHeaders, "headers")]

/-- exchangeTypeAliasIDMap: map from alias string to type id byte. -/
def exchangeTypeAliasIDMap : List (String × Nat) :=
  [("direct", ExTypeDirect), ("fanout", ExTypeFanout),
   ("topic", ExTypeTopic), ("headers", ExTypeHeaders)]

/-- GetExchangeTypeAlias returns exchange type alias by id, or an error for
an undefined id. -/
def GetExchangeTypeAlias (id : Nat) : Except String String :=
  match exchangeTypeIDAliasMap.lookup id with
  | some aliasName => Except.ok aliasName
  | none => Except.error ("undefined exchange type '" ++ toString id ++ "'")

/-- GetExchangeTypeID returns exchange type id by alias, or an error for an
undefined alias. -/
def GetExchangeTypeID (aliasName : String) : Except String Nat :=
  match exchangeTypeAliasIDMap.lookup aliasName with
  | some id => Except.ok id
  | none => Except.error ("undefined exchange alias '" ++ aliasName ++ "'")

/-! ## Binding (modelled package) and Message -/

/-- Modelled from the spec: the binding package is not in src/ (only the
Binding interface is declared there). Per the spec a Binding holds the
source exchange name, the routing key / pattern and the destination queue;
two bindings are equal iff all fields are equal. -/
structure Binding where
  exchange : String
  routingKey : String
  queue : String
deriving DecidableEq, Repr

/-- Modelled from the spec: MatchDirect — exact equality of
(exchange, routingKey) with the routing context. -/
def Binding.MatchDirect (b : Binding) (exchangeName routingKey : String) : Bool :=
  b.exchange == exchangeName && b.routingKey == routingKey

/-- Modelled from the spec: MatchFanout — bound exchange name equals the
context exchange name, regardless of routing key. -/
def Binding.MatchFanout (b : Binding) (exchangeName : String) : Bool :=
  b.exchange == exchangeName

/-- Modelled from the spec: topic word matching over dot-separated words.
Pattern word * matches exactly one word; # matches zero or more words with
backtracking. -/
def topicMatchWords : List String → List String → Bool
  | [], [] => true
  | [], _ :: _ => false
  | "#" :: ps, [] => topicMatchWords ps []
  | "#" :: ps, k :: ks => topicMatchWords ps (k :: ks) || topicMatchWords ("#" :: ps) ks
  | "*" :: _, [] => false
  | "*" :: ps, _ :: ks => topicMatchWords ps ks
  | _ :: _, [] => false
  | p :: ps, k :: ks => p == k && topicMatchWords ps ks
termination_by ps ks => (ps.length, ks.length)

/-- Modelled from the spec: MatchTopic — the bound exchange name must equal
the context exchange name and the pattern must match the routing key under
topic-matching rules. -/
def Binding.MatchTopic (b : Binding) (exchangeName routingKey : String) : Bool :=
  b.exchange == exchangeName &&
    topicMatchWords (b.routingKey.splitOn ".") (routingKey.splitOn ".")

/-- Binding.Equal: two bindings are equal iff all fields are equal
(modelled from the spec). -/
def Binding.Equal (b1 b2 : Binding) : Bool :=
  b1 == b2

/-- The part of amqp.Message consulted by GetMatchedQueues. -/
structure Message where
  exchange : String
  routingKey : String
deriving DecidableEq, Repr

/-! ## Exchange (exchange.go lines 34-45, 63-143) -/

/-- Exchange implements AMQP-exchange. Field order follows the Go struct;
the arguments table is omitted because no embedded operation reads it, and
the bindLock mutex is modelled separately by lock-event traces. -/
structure Exchange where
  Name : String
  exType : Nat
  durable : Bool
  autoDelete : Bool
  internal : Bool
  system : Bool
  bindings : List Binding
deriving DecidableEq, Repr

/-- NewExchange returns new instance of Exchange. -/
def NewExchange (name : String) (exType : Nat)
    (durable autoDelete internal system : Bool) : Exchange :=
  { Name := name, exType := exType, durable := durable,
    autoDelete := autoDelete, internal := internal, system := system,
    bindings := [] }

/-- The loop body of AppendBinding on the bindings slice: scan for an equal
binding; if one is found the call is a no-op, otherwise append. -/
def appendBindingList (bs : List Binding) (newBind : Binding) : List Binding :=
  if bs.any (fun bind => bind.Equal newBind) then bs else bs ++ [newBind]

/-- AppendBinding check and append binding; ignores the new binding when an
equal one already exists. -/
def Exchange.AppendBinding (ex : Exchange) (newBind : Binding) : Exchange :=
  { ex with bindings := appendBindingList ex.bindings newBind }

/-- The loop body of RemoveBinding: remove the first equal binding. -/
def removeBindingList : List Binding → Binding → List Binding
  | [], _ => []
  | bind :: bs, rmBind =>
    if bind.Equal rmBind then bs else bind :: removeBindingList bs rmBind

/-- RemoveBinding remove binding. -/
def Exchange.RemoveBinding (ex : Exchange) (rmBind : Binding) : Exchange :=
  { ex with bindings := removeBindingList ex.bindings rmBind }

/-- RemoveQueueBindings remove bindings for queue and return removed
bindings: partitions the set into kept and removed by queue name. -/
def Exchange.RemoveQueueBindings (ex : Exchange) (queueName : String) :
    Exchange × List Binding :=
  ({ ex with bindings := ex.bindings.filter (fun bind => bind.queue ≠ queueName) },
   ex.bindings.filter (fun bind => bind.queue = queueName))

/-- The direct-case loop of GetMatchedQueues: first binding whose
MatchDirect holds wins and the loop returns at once. -/
def matchDirectLoop : List Binding → Message → Finset String
  | [], _ => ∅
  | bind :: bs, message =>
    if bind.MatchDirect message.exchange message.routingKey
    then {bind.queue}
    else matchDirectLoop bs message

/-- GetMatchedQueues returns queues matched for message routing key.
The switch has cases only for direct, fanout and topic; every other type,
headers included, falls through and yields the empty set. The result models
the keys of the Go map matchedQueues. -/
def Exchange.GetMatchedQueues (ex : Exchange) (message : Message) : Finset String :=
  if ex.exType = ExTypeDirect then
    matchDirectLoop ex.bindings message
  else if ex.exType = ExTypeFanout then
    ex.bindings.foldl
      (fun acc bind =>
        if bind.MatchFanout message.exchange then insert bind.queue acc else acc)
      ∅
  else if ex.exType = ExTypeTopic then
    ex.bindings.foldl
      (fun acc bind =>
        if bind.MatchTopic message.exchange message.routingKey
        then insert bind.queue acc else acc)
      ∅
  else ∅

/-! ## EqualWithErr (exchange.go lines 145-169) -/

/-- Rendering of a Go bool through the %s verb of fmt.Errorf, as the source
does for the durable, autoDelete and internal conflict messages. -/
def fmtSVerbBool (b : Bool) : String :=
  if b then "%!s(bool=true)" else "%!s(bool=false)"

/-- The errTemplate of EqualWithErr instantiated at its four arguments. -/
def inequivalentArg (attr exName received current : String) : String :=
  "inequivalent arg '" ++ attr ++ "' for exchange '" ++ exName ++
    "': received '" ++ received ++ "' but current is '" ++ current ++ "'"

/-- GetExchangeTypeAlias with its error ignored, as EqualWithErr calls it:
on an undefined id the alias is the zero value, the empty string. -/
def aliasOrEmpty (id : Nat) : String :=
  match GetExchangeTypeAlias id with
  | Except.ok aliasName => aliasName
  | Except.error _ => ""

/-- EqualWithErr returns none when the given exchange equals the current
one on exType, durable, autoDelete and internal, otherwise the error
message for the first differing attribute in that order. -/
def Exchange.EqualWithErr (ex exB : Exchange) : Option String :=
  if ex.exType ≠ exB.exType then
    some (inequivalentArg "type" ex.Name (aliasOrEmpty exB.exType) (aliasOrEmpty ex.exType))
  else if ex.durable ≠ exB.durable then
    some (inequivalentArg "durable" ex.Name (fmtSVerbBool exB.durable) (fmtSVerbBool ex.durable))
  else if ex.autoDelete ≠ exB.autoDelete then
    some (inequivalentArg "autoDelete" ex.Name (fmtSVerbBool exB.autoDelete) (fmtSVerbBool ex.autoDelete))
  else if ex.internal ≠ exB.internal then
    some (inequivalentArg "internal" ex.Name (fmtSVerbBool exB.internal) (fmtSVerbBool ex.internal))
  else none

/-! ## Channel.exchangeDeclare (server/exchangeMethods.go lines 19-90) -/

/-- AMQP error codes used by exchangeDeclare. -/
inductive ErrCode where
  | notImplemented
  | commandInvalid
  | notFound
  | accessRefused
  | preconditionFailed
deriving DecidableEq, Repr

/-- The observable outcome of exchangeDeclare: DeclareOk sent and nil
returned, nil returned with no method sent (passive noWait), or a channel
error returned. -/
inductive DeclareResult where
  | declareOk
  | silentOk
  | chError (code : ErrCode) (msg : String)
deriving DecidableEq, Repr

/-- The fields of amqp.ExchangeDeclare read by exchangeDeclare. `typ`
stands for the Go field Type (a Lean keyword). -/
structure ExchangeDeclareM where
  exchange : String
  typ : String
  passive : Bool
  durable : Bool
  autoDelete : Bool
  internal : Bool
  noWait : Bool
deriving DecidableEq, Repr

/-- strings.HasPrefix from the Go standard library: tests whether s begins
with pre (character-list based so that concrete instances evaluate). -/
def hasPrefixStr (pre s : String) : Bool :=
  pre.data.isPrefixOf s.data

/-- The virtual host exchange registry at its boundary: name to Exchange. -/
def Registry : Type := List (String × Exchange)

/-- GetExchange on the registry. -/
def Registry.getExchange (reg : Registry) (name : String) : Option Exchange :=
  List.lookup name reg

/-- AppendExchange on the registry. -/
def Registry.appendExchange (reg : Registry) (ex : Exchange) : Registry :=
  (ex.Name, ex) :: reg

/-- Channel.exchangeDeclare, step for step from the source: exchange-type
validation, empty-name validation, registry lookup, the passive branch,
the reserved-prefix check, then redeclare comparison or registration. -/
def exchangeDeclare (reg : Registry) (method : ExchangeDeclareM) :
    Registry × DeclareResult :=
  match GetExchangeTypeID method.typ with
  | Except.error e => (reg, DeclareResult.chError ErrCode.notImplemented e)
  | Except.ok exTypeId =>
    if method.exchange = "" then
      (reg, DeclareResult.chError ErrCode.commandInvalid "exchange name is requred")
    else
      let existingExchange := reg.getExchange method.exchange
      if method.passive then
        if method.noWait then (reg, DeclareResult.silentOk)
        else
          match existingExchange with
          | none =>
            (reg, DeclareResult.chError ErrCode.notFound
              ("exchange '" ++ method.exchange ++ "' not found"))
          | some _ => (reg, DeclareResult.declareOk)
      else if hasPrefixStr "amq." method.exchange then
        (reg, DeclareResult.chError ErrCode.accessRefused
          ("exchange name '" ++ method.exchange ++ "' contains reserved prefix 'amq.*'"))
      else
        let newExchange := NewExchange method.exchange exTypeId method.durable
          method.autoDelete method.internal false
        match existingExchange with
        | some ex =>
          match ex.EqualWithErr newExchange with
          | some err => (reg, DeclareResult.chError ErrCode.preconditionFailed err)
          | none => (reg, DeclareResult.declareOk)
        | none => (reg.appendExchange newExchange, DeclareResult.declareOk)

/-! ## Marshal / Unmarshal (exchange.go lines 199-213) -/

/-- Modelled from the spec: amqp.WriteShortstr, missing from src/. Per the
spec the record holds the name as a length-prefixed string; the prefix is a
single byte, so the stored length is the byte length modulo 256. -/
def WriteShortstr (s : String) : List Nat :=
  (s.length % 256) :: s.data.map Char.toNat

/-- Modelled from the spec: amqp.WriteOctet, missing from src/ — a single
byte. -/
def WriteOctet (b : Nat) : List Nat :=
  [b % 256]

/-- Modelled from the spec: amqp.ReadShortstr, missing from src/ — read a
length byte, then that many bytes of string data; returns the string and
the remaining input. -/
def ReadShortstr : List Nat → String × List Nat
  | [] => ("", [])
  | len :: rest => (String.mk ((rest.take len).map Char.ofNat), rest.drop len)

/-- Modelled from the spec: amqp.ReadOctet, missing from src/ — read one
byte; returns it and the remaining input. -/
def ReadOctet : List Nat → Nat × List Nat
  | [] => (0, [])
  | b :: rest => (b, rest)

/-- Marshal returns raw representation of exchange to store into storage:
the name as a shortstr followed by the exchange type octet. -/
def Exchange.Marshal (ex : Exchange) : List Nat :=
  WriteShortstr ex.Name ++ WriteOctet ex.exType

/-- Unmarshal sets exchange fields from storage raw bytes data: reads the
name and the exchange type, and always sets durable to true. -/
def Exchange.Unmarshal (ex : Exchange) (data : List Nat) : Exchange :=
  let nameRest := ReadShortstr data
  let tyRest := ReadOctet nameRest.2
  { ex with Name := nameRest.1, exType := tyRest.1, durable := true }

/-! ## BuntDB storage wrapper (storage/storage_bunt.go) -/

/-- The key/value contents of the backing buntdb store. -/
def Store : Type := List (String × String)

/-- tx.Set inside a buntdb transaction: replace the value of an existing
key or add the pair. -/
def txSet : Store → String → String → Store
  | [], key, value => [(key, value)]
  | (k, v) :: rest, key, value =>
    if k = key then (key, value) :: rest else (k, v) :: txSet rest key value

/-- tx.Delete inside a buntdb transaction: remove the key if present;
reports whether the key was found. -/
def txDelete : Store → String → Store × Bool
  | [], _ => ([], false)
  | (k, v) :: rest, key =>
    if k = key then (rest, true)
    else
      let r := txDelete rest key
      ((k, v) :: r.1, r.2)

/-- tx.Get inside a buntdb transaction: the stored value, or the not-found
error. -/
def txGet (store : Store) (key : String) : Except String String :=
  match List.lookup key store with
  | some v => Except.ok v
  | none => Except.error "not found"

/-- Modelled from the spec: buntdb DB.Update is an external transaction
engine. It runs the closure on the store; if the closure returns an error
the transaction is rolled back and the store is unchanged; otherwise the
commit either makes the whole new store visible or — on an engine-level
failure such as disk I/O, abstracted by the commitOk flag — fails with an
error and leaves the store unchanged (applyBatch is a single atomic
transaction: all visible or none). -/
def dbUpdate (store : Store) (f : Store → Store × Option String)
    (commitOk : Bool) : Store × Option String :=
  match f store with
  | (_, some e) => (store, some e)
  | (newStore, none) =>
    if commitOk then (newStore, none) else (store, some "engine io error")

/-- An element of a ProcessBatch batch (interfaces.Operation). -/
inductive Operation where
  | opSet (key : String) (value : String)
  | opDel (key : String)
deriving DecidableEq, Repr

/-- The loop body of the ProcessBatch transaction closure: apply one
operation to the transaction view; errors of tx.Set and tx.Delete are
discarded by the source. -/
def applyOperation (store : Store) (op : Operation) : Store :=
  match op with
  | Operation.opSet key value => txSet store key value
  | Operation.opDel key => (txDelete store key).1

/-- ProcessBatch process batch of operations inside one db.Update
transaction; the closure always returns nil. -/
def ProcessBatch (store : Store) (batch : List Operation) (commitOk : Bool) :
    Store × Option String :=
  dbUpdate store (fun tx => (batch.foldl applyOperation tx, none)) commitOk

/-- Modelled from the spec: buntdb DB.View runs a read-only closure on the
store and returns the closure's result, including its error. -/
def dbView {α : Type} (store : Store) (f : Store → α × Option String) :
    α × Option String :=
  f store

/-- BuntDB.Get, step for step from the source: the named return err starts
nil; the closure declares its own data and err with := (shadowing the named
return), assigns the captured value on success and returns the tx.Get
error; the error returned by db.View is discarded; the function returns
the captured value and the never-assigned named err. -/
def BuntDBGet (store : Store) (key : String) : Option String × Option String :=
  let err : Option String := none
  let viewCall :=
    dbView store (fun tx =>
      match txGet tx key with
      | Except.error e => (none, some e)
      | Except.ok data => (some data, none))
  let value : Option String := viewCall.1
  let _discardedViewErr := viewCall.2
  (value, err)

/-! ## Lock-event traces for the bindLock mutex

Each bindings-set method of Exchange is paired with the exact sequence of
operations it performs on ex.bindLock, transcribed from the source:
AppendBinding, RemoveBinding, RemoveQueueBindings each run
bindLock.Lock() on entry and the deferred bindLock.Unlock() on return,
while the body of GetMatchedQueues contains no bindLock call at all. -/

/-- An operation on the exchange's bindLock mutex. -/
inductive LockEvent where
  | acquire
  | release
deriving DecidableEq, Repr

/-- AppendBinding with its bindLock trace. -/
def Exchange.AppendBindingT (ex : Exchange) (newBind : Binding) :
    Exchange × List LockEvent :=
  (ex.AppendBinding newBind, [LockEvent.acquire, LockEvent.release])

/-- RemoveBinding with its bindLock trace. -/
def Exchange.RemoveBindingT (ex : Exchange) (rmBind : Binding) :
    Exchange × List LockEvent :=
  (ex.RemoveBinding rmBind, [LockEvent.acquire, LockEvent.release])

/-- RemoveQueueBindings with its bindLock trace. -/
def Exchange.RemoveQueueBindingsT (ex : Exchange) (queueName : String) :
    (Exchange × List Binding) × List LockEvent :=
  (ex.RemoveQueueBindings queueName, [LockEvent.acquire, LockEvent.release])

/-- GetMatchedQueues with its bindLock trace: the source function never
touches the lock, so the trace is empty. -/
def Exchange.GetMatchedQueuesT (ex : Exchange) (message : Message) :
    Finset String × List LockEvent :=
  (ex.GetMatchedQueues message, [])

/-! ## Theorems -/

/-- Helper: the direct-case loop returns the singleton queue of the first
matching binding in list order, or the empty set. -/
theorem matchDirectLoop_eq_find (bs : List Binding) (m : Message) :
    matchDirectLoop bs m =
      (match bs.find? (fun b => b.exchange == m.exchange && b.routingKey == m.routingKey) with
       | some b => ({b.queue} : Finset String)
       | none => (∅ : Finset String)) := by
  induction bs with
  | nil => rfl
  | cons b bs ih =>
    by_cases h : (b.exchange == m.exchange && b.routingKey == m.routingKey) = true
    · simp [matchDirectLoop, Binding.MatchDirect, List.find?, h]
    · simp only [matchDirectLoop, Binding.MatchDirect, List.find?, h, if_neg, ih]
      simp [h]

/-- C3: for a direct exchange, GetMatchedQueues returns the queue of the
first binding, in insertion order, whose (exchange, routingKey) equals the
message's pair exactly, and the empty set when no binding matches; the
result never has more than one element. -/
theorem direct_getMatchedQueues_first_match (n : String) (d ad i s : Bool)
    (bs : List Binding) (m : Message) :
    (Exchange.mk n ExTypeDirect d ad i s bs).GetMatchedQueues m =
      (match bs.find? (fun b => b.exchange == m.exchange && b.routingKey == m.routingKey) with
       | some b => ({b.queue} : Finset String)
       | none => (∅ : Finset String)) ∧
    ((Exchange.mk n ExTypeDirect d ad i s bs).GetMatchedQueues m).card ≤ 1 := by
  have hq : (Exchange.mk n ExTypeDirect d ad i s bs).GetMatchedQueues m =
      matchDirectLoop bs m := by
    simp [Exchange.GetMatchedQueues]
  refine ⟨hq.trans (matchDirectLoop_eq_find bs m), ?_⟩
  rw [hq, matchDirectLoop_eq_find]
  cases bs.find? (fun b => b.exchange == m.exchange && b.routingKey == m.routingKey) with
  | none => simp
  | some b => simp

/-- C1 amended: for an exchange of kind headers, GetMatchedQueues returns
the empty set whatever the bindings and the message are — the dispatch has
no headers case and headers falls through to the defensive default. -/
theorem headers_getMatchedQueues_empty (n : String) (d ad i s : Bool)
    (bs : List Binding) (m : Message) :
    (Exchange.mk n ExTypeHeaders d ad i s bs).GetMatchedQueues m = (∅ : Finset String) := by
  simp [Exchange.GetMatchedQueues, ExTypeHeaders, ExTypeDirect, ExTypeFanout, ExTypeTopic]

/-- C1 counterexample: a headers exchange with a binding to queue q1 — a
binding every header predicate notion would let the message satisfy, since
the code stores no header predicate at all — still routes to the empty
set, not to the non-empty set the claim requires. -/
theorem headers_getMatchedQueues_counterexample :
    (Exchange.mk "hx" ExTypeHeaders false false false false
        [Binding.mk "hx" "" "q1"]).GetMatchedQueues (Message.mk "hx" "") =
      (∅ : Finset String) ∧
    (∅ : Finset String) ≠ ({"q1"} : Finset String) := by
  constructor
  · rfl
  · decide

/-- C2 amended: AppendBinding, RemoveBinding and RemoveQueueBindings each
acquire and then release the bindLock, while GetMatchedQueues performs no
lock operation at all: its scan reads the binding set without the lock, so
mutual exclusion between routing queries and mutations is not enforced. -/
theorem bindLock_traces (ex : Exchange) (m : Message) (nb rb : Binding) (q : String) :
    (ex.GetMatchedQueuesT m).2 = [] ∧
    (ex.AppendBindingT nb).2 = [LockEvent.acquire, LockEvent.release] ∧
    (ex.RemoveBindingT rb).2 = [LockEvent.acquire, LockEvent.release] ∧
    (ex.RemoveQueueBindingsT q).2 = [LockEvent.acquire, LockEvent.release] :=
  ⟨rfl, rfl, rfl, rfl⟩

/-- C2 counterexample: on a concrete direct exchange and message, the
routing query's bindLock trace contains no acquire, refuting that the query
holds the exclusive binding lock for its scan. -/
theorem getMatchedQueues_no_lock_counterexample :
    LockEvent.acquire ∉
      ((Exchange.mk "dx" ExTypeDirect false false false false
          [Binding.mk "dx" "a" "q1"]).GetMatchedQueuesT (Message.mk "dx" "a")).2 := by
  decide

/-- C6: BuntDB.Get on a key with no committed value returns a nil error
together with no value — the closure's err shadows the named return and the
error of db.View is discarded, so the not-found outcome is reported as
success. -/
theorem buntGet_missing_key_nil_error :
    BuntDBGet ([] : Store) "missing" = (none, none) := rfl

/-- C9: ProcessBatch runs the whole batch in one transaction: when the
commit succeeds every operation of the batch is applied to the store in
order, and when the engine-level commit fails the store is unchanged — no
partial application. -/
theorem processBatch_atomic (store : Store) (batch : List Operation) (commitOk : Bool) :
    (ProcessBatch store batch commitOk = (batch.foldl applyOperation store, none) ∧
      commitOk = true) ∨
    (ProcessBatch store batch commitOk = (store, some "engine io error") ∧
      commitOk = false) := by
  cases commitOk with
  | true => exact Or.inl ⟨rfl, rfl⟩
  | false => exact Or.inr ⟨rfl, rfl⟩

/-- C10: the alias and id conversion functions are mutual inverses on the
four defined aliases and ids, and reject every other alias or id with an
error. -/
theorem exchangeTypeMaps_mutual_inverses :
    (GetExchangeTypeID "direct" = Except.ok 1 ∧ GetExchangeTypeAlias 1 = Except.ok "direct" ∧
     GetExchangeTypeID "fanout" = Except.ok 2 ∧ GetExchangeTypeAlias 2 = Except.ok "fanout" ∧
     GetExchangeTypeID "topic" = Except.ok 3 ∧ GetExchangeTypeAlias 3 = Except.ok "topic" ∧
     GetExchangeTypeID "headers" = Except.ok 4 ∧ GetExchangeTypeAlias 4 = Except.ok "headers") ∧
    (∀ a : String, a ≠ "direct" → a ≠ "fanout" → a ≠ "topic" → a ≠ "headers" →
      GetExchangeTypeID a = Except.error ("undefined exchange alias '" ++ a ++ "'")) ∧
    (∀ id : Nat, id ≠ 1 → id ≠ 2 → id ≠ 3 → id ≠ 4 →
      GetExchangeTypeAlias id = Except.error ("undefined exchange type '" ++ toString id ++ "'")) := by
  refine ⟨⟨rfl, rfl, rfl, rfl, rfl, rfl, rfl, rfl⟩, ?_, ?_⟩
  · intro a h1 h2 h3 h4
    have e1 : (a == "direct") = false := by simp [h1]
    have e2 : (a == "fanout") = false := by simp [h2]
    have e3 : (a == "topic") = false := by simp [h3]
    have e4 : (a == "headers") = false := by simp [h4]
    simp [GetExchangeTypeID, exchangeTypeAliasIDMap, List.lookup,
      ExTypeDirect, ExTypeFanout, ExTypeTopic, ExTypeHeaders, e1, e2, e3, e4]
  · intro id h1 h2 h3 h4
    have e1 : (id == 1) = false := by simp [h1]
    have e2 : (id == 2) = false := by simp [h2]
    have e3 : (id == 3) = false := by simp [h3]
    have e4 : (id == 4) = false := by simp [h4]
    simp [GetExchangeTypeAlias, exchangeTypeIDAliasMap, List.lookup,
      ExTypeDirect, ExTypeFanout, ExTypeTopic, ExTypeHeaders, e1, e2, e3, e4]

/-- C10 witness: the conversions at concrete defined and undefined
arguments. -/
theorem exchangeTypeMaps_mutual_inverses_witness :
    GetExchangeTypeID "quorum" = Except.error "undefined exchange alias 'quorum'" :=
  exchangeTypeMaps_mutual_inverses.2.1 "quorum"
    (by decide) (by decide) (by decide) (by decide)

/-- C8: appending a binding equal to one already in the exchange's binding
set leaves the exchange — binding set, size and order included — unchanged,
and AppendBinding preserves freedom from duplicates, so no binding is ever
present twice. -/
theorem appendBinding_no_duplicate (ex : Exchange) (nb : Binding) :
    ((∃ b ∈ ex.bindings, b.Equal nb) → ex.AppendBinding nb = ex) ∧
    (ex.bindings.Nodup → (ex.AppendBinding nb).bindings.Nodup) := by
  constructor
  · intro hex
    have hany : ex.bindings.any (fun bind => bind.Equal nb) = true := by
      rcases hex with ⟨b, hb, he⟩
      exact List.any_eq_true.mpr ⟨b, hb, he⟩
    show { ex with bindings := appendBindingList ex.bindings nb } = ex
    rw [appendBindingList, if_pos hany]
  · intro hnd
    by_cases hany : ex.bindings.any (fun bind => bind.Equal nb) = true
    · simpa [Exchange.AppendBinding, appendBindingList, hany] using hnd
    · have hnotin : nb ∉ ex.bindings := by
        intro hmem
        exact hany (List.any_eq_true.mpr ⟨nb, hmem, by simp [Binding.Equal]⟩)
      simp [Exchange.AppendBinding, appendBindingList, hany, List.nodup_append,
        hnd, hnotin]

/-- C8 witness: appending the binding already present leaves the concrete
exchange unchanged. -/
theorem appendBinding_no_duplicate_witness :
    (Exchange.mk "dx2" 1 false false false false
        [Binding.mk "dx2" "a" "q1"]).AppendBinding (Binding.mk "dx2" "a" "q1") =
      Exchange.mk "dx2" 1 false false false false [Binding.mk "dx2" "a" "q1"] :=
  (appendBinding_no_duplicate
      (Exchange.mk "dx2" 1 false false false false [Binding.mk "dx2" "a" "q1"])
      (Binding.mk "dx2" "a" "q1")).1
    ⟨Binding.mk "dx2" "a" "q1", by decide, by decide⟩

/-- Helper: Char.ofNat undoes Char.toNat on every list of characters. -/
theorem map_ofNat_toNat (l : List Char) :
    l.map (fun c => Char.ofNat (Char.toNat c)) = l := by
  induction l with
  | nil => rfl
  | cons c cs ih => simp [Char.ofNat_toNat, ih]

/-- Helper: rebuilding a string from its character data gives it back. -/
theorem string_mk_data (s : String) : String.mk s.data = s := rfl

/-- C7: decoding the encoded record of an exchange whose name fits the
shortstr length byte restores the name and the kind, and the decoded
exchange reads durable regardless of the durable flag of the original. -/
theorem marshal_unmarshal_roundtrip (ex ex0 : Exchange)
    (hlen : ex.Name.length ≤ 255)
    (hbytes : ∀ c ∈ ex.Name.data, Char.toNat c ≤ 255)
    (hty : ex.exType ≤ 255) :
    (ex0.Unmarshal ex.Marshal).Name = ex.Name ∧
    (ex0.Unmarshal ex.Marshal).exType = ex.exType ∧
    (ex0.Unmarshal ex.Marshal).durable = true := by
  have hlen' : ex.Name.length % 256 = ex.Name.length :=
    Nat.mod_eq_of_lt (Nat.lt_succ_of_le hlen)
  have hty' : ex.exType % 256 = ex.exType :=
    Nat.mod_eq_of_lt (Nat.lt_succ_of_le hty)
  have e1 : ex.Marshal = ex.Name.length :: (ex.Name.data.map Char.toNat ++ [ex.exType]) := by
    simp [Exchange.Marshal, WriteShortstr, WriteOctet, hlen', hty']
  have hl : ex.Name.length = (ex.Name.data.map Char.toNat).length := by
    rw [List.length_map]
    rfl
  have e2 : ReadShortstr (ex.Name.length :: (ex.Name.data.map Char.toNat ++ [ex.exType])) =
      (ex.Name, [ex.exType]) := by
    rw [ReadShortstr, hl, List.take_left, List.drop_left]
    rw [List.map_map]
    simp only [Function.comp_def]
    rw [map_ofNat_toNat, string_mk_data]
  have e3 : ex0.Unmarshal ex.Marshal =
      { ex0 with Name := ex.Name, exType := ex.exType, durable := true } := by
    rw [e1, Exchange.Unmarshal, e2]
    rfl
  rw [e3]
  exact ⟨rfl, rfl, rfl⟩

/-- C7 witness: a concrete non-durable exchange round-trips with its name
and kind intact and durable reading true. -/
theorem marshal_unmarshal_roundtrip_witness :
    ((NewExchange "tmp" 0 true true true true).Unmarshal
        (NewExchange "ex1" 1 false false false false).Marshal).Name =
      (NewExchange "ex1" 1 false false false false).Name ∧
    ((NewExchange "tmp" 0 true true true true).Unmarshal
        (NewExchange "ex1" 1 false false false false).Marshal).exType =
      (NewExchange "ex1" 1 false false false false).exType ∧
    ((NewExchange "tmp" 0 true true true true).Unmarshal
        (NewExchange "ex1" 1 false false false false).Marshal).durable = true :=
  marshal_unmarshal_roundtrip (NewExchange "ex1" 1 false false false false)
    (NewExchange "tmp" 0 true true true true)
    (by decide) (by decide) (by decide)

/-- C4: declaring over an existing exchange through exchangeDeclare is a
no-op reporting success when exType, durable, autoDelete and internal all
match, and otherwise rejects with a precondition-failed error naming the
first differing attribute, in the order type, durable, autoDelete,
internal, together with the received and current values; the registry is
unchanged either way. -/
theorem redeclare_idempotent_or_conflict (reg : Registry) (method : ExchangeDeclareM)
    (exg : Exchange) (tid : Nat)
    (htype : GetExchangeTypeID method.typ = Except.ok tid)
    (hname : method.exchange ≠ "")
    (hpassive : method.passive = false)
    (hres : hasPrefixStr "amq." method.exchange = false)
    (hlook : reg.getExchange method.exchange = some exg) :
    (exg.exType = tid ∧ exg.durable = method.durable ∧
        exg.autoDelete = method.autoDelete ∧ exg.internal = method.internal →
      exchangeDeclare reg method = (reg, DeclareResult.declareOk)) ∧
    (exg.exType ≠ tid →
      exchangeDeclare reg method = (reg, DeclareResult.chError ErrCode.preconditionFailed
        (inequivalentArg "type" exg.Name (aliasOrEmpty tid) (aliasOrEmpty exg.exType)))) ∧
    (exg.exType = tid → exg.durable ≠ method.durable →
      exchangeDeclare reg method = (reg, DeclareResult.chError ErrCode.preconditionFailed
        (inequivalentArg "durable" exg.Name
          (fmtSVerbBool method.durable) (fmtSVerbBool exg.durable)))) ∧
    (exg.exType = tid → exg.durable = method.durable →
        exg.autoDelete ≠ method.autoDelete →
      exchangeDeclare reg method = (reg, DeclareResult.chError ErrCode.preconditionFailed
        (inequivalentArg "autoDelete" exg.Name
          (fmtSVerbBool method.autoDelete) (fmtSVerbBool exg.autoDelete)))) ∧
    (exg.exType = tid → exg.durable = method.durable →
        exg.autoDelete = method.autoDelete → exg.internal ≠ method.internal →
      exchangeDeclare reg method = (reg, DeclareResult.chError ErrCode.preconditionFailed
        (inequivalentArg "internal" exg.Name
          (fmtSVerbBool method.internal) (fmtSVerbBool exg.internal)))) := by
  have hmain : exchangeDeclare reg method =
      (match exg.EqualWithErr (NewExchange method.exchange tid method.durable
          method.autoDelete method.internal false) with
       | some err => (reg, DeclareResult.chError ErrCode.preconditionFailed err)
       | none => (reg, DeclareResult.declareOk)) := by
    simp [exchangeDeclare, htype, hname, hpassive, hres, hlook]
  refine ⟨?_, ?_, ?_, ?_, ?_⟩
  · rintro ⟨h1, h2, h3, h4⟩
    rw [hmain]
    simp [Exchange.EqualWithErr, NewExchange, h1, h2, h3, h4]
  · intro h1
    rw [hmain]
    simp [Exchange.EqualWithErr, NewExchange, h1]
  · intro h1 h2
    rw [hmain]
    simp [Exchange.EqualWithErr, NewExchange, h1, h2]
  · intro h1 h2 h3
    rw [hmain]
    simp [Exchange.EqualWithErr, NewExchange, h1, h2, h3]
  · intro h1 h2 h3 h4
    rw [hmain]
    simp [Exchange.EqualWithErr, NewExchange, h1, h2, h3, h4]

/-- C4 witness: redeclaring a concrete exchange with identical attributes
reports success and leaves the registry unchanged. -/
theorem redeclare_idempotent_or_conflict_witness :
    exchangeDeclare [("ex2", NewExchange "ex2" 1 true false false false)]
        (ExchangeDeclareM.mk "ex2" "direct" false true false false false) =
      ([("ex2", NewExchange "ex2" 1 true false false false)], DeclareResult.declareOk) :=
  (redeclare_idempotent_or_conflict
      [("ex2", NewExchange "ex2" 1 true false false false)]
      (ExchangeDeclareM.mk "ex2" "direct" false true false false false)
      (NewExchange "ex2" 1 true false false false) 1
      rfl (by decide) rfl (by decide) (by decide)).1 ⟨rfl, rfl, rfl, rfl⟩

/-- C5 amended: a non-passive declare whose exchange name carries the
reserved prefix is rejected with the access-refused reserved-name error and
no registry change — but this check runs after the exchange-type and
empty-name validations, after the registry lookup and after the passive
branch, and passive declares bypass it entirely. -/
theorem reserved_name_nonpassive_rejected (reg : Registry) (method : ExchangeDeclareM)
    (tid : Nat)
    (htype : GetExchangeTypeID method.typ = Except.ok tid)
    (hname : method.exchange ≠ "")
    (hpassive : method.passive = false)
    (hres : hasPrefixStr "amq." method.exchange = true) :
    exchangeDeclare reg method = (reg, DeclareResult.chError ErrCode.accessRefused
      ("exchange name '" ++ method.exchange ++ "' contains reserved prefix 'amq.*'")) := by
  simp [exchangeDeclare, htype, hname, hpassive, hres]

/-- C5 witness: a concrete non-passive declare of a reserved name is
rejected with the access-refused error. -/
theorem reserved_name_nonpassive_rejected_witness :
    exchangeDeclare [] (ExchangeDeclareM.mk "amq.test" "fanout" false false false false false) =
      ([], DeclareResult.chError ErrCode.accessRefused
        "exchange name 'amq.test' contains reserved prefix 'amq.*'") :=
  reserved_name_nonpassive_rejected []
    (ExchangeDeclareM.mk "amq.test" "fanout" false false false false false) 2
    rfl (by decide) rfl (by decide)

/-- C5 counterexample: a passive declare of the reserved name amq.direct
over a registry that holds that exchange succeeds with DeclareOk instead of
being rejected with the reserved-name error, so the reserved-prefix rule is
not applied to every declare request and not before the registry lookup. -/
theorem reserved_name_passive_not_rejected_counterexample :
    exchangeDeclare [("amq.direct", NewExchange "amq.direct" 1 true false false true)]
        (ExchangeDeclareM.mk "amq.direct" "direct" true true false false false) =
      ([("amq.direct", NewExchange "amq.direct" 1 true false false true)],
        DeclareResult.declareOk) := by
  rfl

end Garagemq

